import Mathlib

/-!
# Galois field arithmetic over GF(2^m): shallow embedding

This file embeds the `GaloisField` class of `main.py`: construction of the
exponent/log tables from a primitive polynomial and degree `m`, the raw
carry-less multiply-and-reduce helper `_multiply_without_tables`, and the
query operations `add`, `subtract`, `multiply`, `divide`, `inverse`.

Field elements are natural numbers whose bits are the polynomial
coefficients.  Python lists become `List Nat`; Python's in-place
`table[i] = v` becomes `List.set` (identical for the in-bounds writes
performed here); `table[i]` reads become `List.getD _ _ 0` (identical for
in-bounds reads).  The `ValueError`s raised by `divide` and `inverse`
become `Except.error` with the source's message strings.  Python's `%` on
a possibly negative left operand with a positive modulus agrees with
`Int.emod`, which is what `%` on `Int` means in Lean.
-/

namespace GF

/-- The state of a constructed `GaloisField` object: the fields assigned in
`__init__` of `main.py`.  (Lives in namespace `GF` because Mathlib already
has an unrelated `GaloisField`.) -/
structure GaloisField where
  m : Nat
  primitive_poly : Nat
  field_size : Nat
  mask : Nat
  exp_table : List Nat
  log_table : List Nat

/-- The `while b:` loop of `_multiply_without_tables` (main.py lines 31-39),
with the loop variables `a`, `b`, `result` made explicit.  The loop halves
`b` each iteration, so it is encoded with structural recursion on a `fuel`
counter (keeping the definition kernel-computable); every caller passes
`fuel = b`, which dominates the iteration count, and
`multiplyWithoutTablesGo_fuel` below proves the result does not depend on
the fuel as long as it dominates `b` — so this is exactly the function the
`while` loop computes. -/
def multiplyWithoutTablesGo (field_size primitive_poly : Nat) :
    Nat → Nat → Nat → Nat → Nat
  | _, _, 0, result => result
  | 0, _, _, result => result
  | fuel + 1, a, b, result =>
      let result := if b &&& 1 = 1 then result ^^^ a else result
      let a := a <<< 1
      let a := if a &&& field_size ≠ 0 then a ^^^ primitive_poly else a
      multiplyWithoutTablesGo field_size primitive_poly fuel a (b >>> 1) result

/-- `_multiply_without_tables(a, b)` of `main.py` as a function of the two
object fields it reads (`self.field_size`, `self.primitive_poly`). -/
def multiplyWithoutTablesFn (field_size primitive_poly a b : Nat) : Nat :=
  multiplyWithoutTablesGo field_size primitive_poly b a b 0

/-- The table-construction loop of `__init__` (main.py lines 22-27):
`n` iterations remain, `i` is the current loop index, `x` the current power
of the generator.  Each step writes `exp_table[i] = x`,
`exp_table[i + field_size - 1] = x`, `log_table[x] = i`, then advances
`x` by `_multiply_without_tables(x, 2)`. -/
def buildTablesGo (field_size primitive_poly : Nat) :
    Nat → Nat → Nat → List Nat → List Nat → List Nat × List Nat
  | 0, _, _, exp_table, log_table => (exp_table, log_table)
  | n + 1, i, x, exp_table, log_table =>
      buildTablesGo field_size primitive_poly n (i + 1)
        (multiplyWithoutTablesFn field_size primitive_poly x 2)
        ((exp_table.set i x).set (i + field_size - 1) x)
        (log_table.set x i)

/-- `GaloisField(primitive_poly, m)`: the constructor of `main.py`.
`field_size = 1 << m`, `mask = field_size - 1`, tables initialised to
`[0] * (2 * field_size)` and `[0] * field_size` and then populated by the
loop `for i in range(field_size - 1)` starting from `x = 1`. -/
def mkGaloisField (primitive_poly m : Nat) : GaloisField :=
  let field_size := 1 <<< m
  let tables := buildTablesGo field_size primitive_poly (field_size - 1) 0 1
      (List.replicate (2 * field_size) 0) (List.replicate field_size 0)
  { m := m
    primitive_poly := primitive_poly
    field_size := field_size
    mask := field_size - 1
    exp_table := tables.1
    log_table := tables.2 }

/-- `_multiply_without_tables` as a method on the constructed object. -/
def GaloisField.multiplyWithoutTables (gf : GaloisField) (a b : Nat) : Nat :=
  multiplyWithoutTablesFn gf.field_size gf.primitive_poly a b

/-- `add(a, b)`: XOR (main.py line 43). -/
def GaloisField.add (_gf : GaloisField) (a b : Nat) : Nat :=
  a ^^^ b

/-- `subtract(a, b)`: alias of `add` (main.py line 47). -/
def GaloisField.subtract (gf : GaloisField) (a b : Nat) : Nat :=
  gf.add a b

/-- The exponent-table index computed by `multiply` on the nonzero path:
`(log_table[a] + log_table[b]) % (field_size - 1)` (main.py line 53). -/
def GaloisField.mulIndex (gf : GaloisField) (a b : Nat) : Nat :=
  (gf.log_table.getD a 0 + gf.log_table.getD b 0) % (gf.field_size - 1)

/-- `multiply(a, b)` (main.py lines 49-53): `0` if either operand is `0`,
otherwise the exponent-table lookup at `mulIndex`. -/
def GaloisField.multiply (gf : GaloisField) (a b : Nat) : Nat :=
  if a = 0 ∨ b = 0 then 0
  else gf.exp_table.getD (gf.mulIndex a b) 0

/-- The exponent-table index computed by `divide` on the nonzero path:
`(log_table[a] - log_table[b]) % (field_size - 1)` with Python's
sign-of-divisor modulo, i.e. `Int.emod` (main.py line 61). -/
def GaloisField.divIndex (gf : GaloisField) (a b : Nat) : Nat :=
  (((gf.log_table.getD a 0 : Int) - (gf.log_table.getD b 0 : Int))
    % ((gf.field_size : Int) - 1)).toNat

/-- `divide(a, b)` (main.py lines 55-61): raises `ValueError("Division by
zero")` if `b == 0`, returns `0` if `a == 0`, otherwise the exponent-table
lookup at `divIndex`. -/
def GaloisField.divide (gf : GaloisField) (a b : Nat) : Except String Nat :=
  if b = 0 then Except.error "Division by zero"
  else if a = 0 then Except.ok 0
  else Except.ok (gf.exp_table.getD (gf.divIndex a b) 0)

/-- The exponent-table index computed by `inverse` on the nonzero path:
`(-log_table[a]) % (field_size - 1)` with Python's modulo, i.e. `Int.emod`
(main.py line 67). -/
def GaloisField.invIndex (gf : GaloisField) (a : Nat) : Nat :=
  ((-(gf.log_table.getD a 0 : Int)) % ((gf.field_size : Int) - 1)).toNat

/-- `inverse(a)` (main.py lines 63-67): raises `ValueError("Zero has no
multiplicative inverse")` if `a == 0`, otherwise the exponent-table lookup
at `invIndex`. -/
def GaloisField.inverse (gf : GaloisField) (a : Nat) : Except String Nat :=
  if a = 0 then Except.error "Zero has no multiplicative inverse"
  else Except.ok (gf.exp_table.getD (gf.invIndex a) 0)

/-- The field of `example_usage` (main.py line 71):
`GaloisField(primitive_poly=0b10011, m=4)`, i.e. GF(2^4). -/
def gf16 : GaloisField :=
  mkGaloisField 0b10011 4

deriving instance DecidableEq for Except

/-- Fuel-irrelevance of the loop encoding: any fuel dominating `b` gives the
same result, so `multiplyWithoutTablesFn` (which passes `fuel = b`) is the
function computed by the unbounded `while b:` loop of the source. -/
theorem multiplyWithoutTablesGo_fuel (field_size primitive_poly : Nat) :
    ∀ fuel fuel' a b result, b ≤ fuel → b ≤ fuel' →
      multiplyWithoutTablesGo field_size primitive_poly fuel a b result
        = multiplyWithoutTablesGo field_size primitive_poly fuel' a b result := by
  intro fuel
  induction fuel with
  | zero =>
    intro fuel' a b result hb _
    have hb0 : b = 0 := Nat.le_zero.mp hb
    subst hb0
    cases fuel' <;> rfl
  | succ n ih =>
    intro fuel' a b result hb hb'
    cases b with
    | zero => cases fuel' <;> rfl
    | succ m =>
      cases fuel' with
      | zero => omega
      | succ k =>
        have hdiv : (m + 1) >>> 1 = (m + 1) / 2 := by
          rw [Nat.shiftRight_eq_div_pow]
        simp only [multiplyWithoutTablesGo]
        apply ih <;> rw [hdiv] <;> omega

/-- Reading a list position other than the one just written is unchanged. -/
theorem getD_set_ne (l : List Nat) (i j v : Nat) (h : i ≠ j) :
    (l.set i v).getD j 0 = l.getD j 0 := by
  simp [List.getD_eq_getElem?_getD, List.getElem?_set_ne h]

/-- Reading the list position just written yields the written value. -/
theorem getD_set_self (l : List Nat) (i v : Nat) (h : i < l.length) :
    (l.set i v).getD i 0 = v := by
  simp [List.getD_eq_getElem?_getD, List.getElem?_set_self h]

/-- Invariant of the construction loop: every completed iteration `j` has
written the same value `x` to `exp_table[j]` and `exp_table[j + field_size - 1]`,
and later iterations never touch either position again. -/
theorem buildTablesGo_expPairs (field_size primitive_poly : Nat)
    (hfs : 1 ≤ field_size) :
    ∀ (n i x : Nat) (e l : List Nat),
      e.length = 2 * field_size →
      i + n ≤ field_size - 1 →
      (∀ j, j < i → e.getD j 0 = e.getD (j + field_size - 1) 0) →
      ∀ j, j < i + n →
        (buildTablesGo field_size primitive_poly n i x e l).1.getD j 0
          = (buildTablesGo field_size primitive_poly n i x e l).1.getD
              (j + field_size - 1) 0 := by
  intro n
  induction n with
  | zero =>
    intro i x e l _ _ hinv j hj
    exact hinv j (by omega)
  | succ n ih =>
    intro i x e l hlen hin hinv j hj
    simp only [buildTablesGo]
    apply ih (i + 1) _ _ _ (by simp [hlen]) (by omega) _ j (by omega)
    intro j' hj'
    rcases Nat.lt_succ_iff_lt_or_eq.mp hj' with h | h
    · rw [getD_set_ne _ _ _ _ (by omega), getD_set_ne _ _ _ _ (by omega),
        getD_set_ne _ _ _ _ (by omega), getD_set_ne _ _ _ _ (by omega)]
      exact hinv j' h
    · subst h
      rw [getD_set_ne _ _ _ _ (by omega), getD_set_self _ _ _ (by simp [hlen]; omega),
        getD_set_self _ _ _ (by simp [hlen]; omega)]

/-- C1 (counterexample): the spec's concrete GF(2^4) scenario is wrong on the
code.  With `a = 0b1011` and `b = 0b1101` the implementation returns
`multiply(a,b) = 6` (not `0b1010 = 10`), `divide(a,b) = 10` (not
`0b1100 = 12`) and `inverse(a) = 5` (not `0b1101 = 13`), so the claimed
conjunction of results is false. -/
theorem c1_scenario_counterexample :
    ¬ (gf16.add 11 13 = 6 ∧ gf16.multiply 11 13 = 10 ∧
        gf16.divide 11 13 = Except.ok 12 ∧ gf16.inverse 11 = Except.ok 13) := by
  decide

/-- C1 (amended): for the field constructed with `primitive_poly = 0b10011`
and `m = 4`, with `a = 0b1011` (11) and `b = 0b1101` (13), `add(a,b)`
returns `0b0110` (6), `multiply(a,b)` returns `0b0110` (6), `divide(a,b)`
returns `0b1010` (10), and `inverse(a)` returns `0b0101` (5). -/
theorem c1_scenario_values :
    gf16.add 11 13 = 6 ∧ gf16.multiply 11 13 = 6 ∧
      gf16.divide 11 13 = Except.ok 10 ∧ gf16.inverse 11 = Except.ok 5 := by
  decide

/-- C2: for the field constructed with the primitive degree-4 polynomial
`0b10011`, table-driven `multiply(a, b)` agrees with the raw carry-less
reference routine `_multiply_without_tables(a, b)` on every pair of
elements `a, b` in `[0, field_size)`. -/
theorem c2_multiply_refines_raw :
    ∀ a, a < gf16.field_size → ∀ b, b < gf16.field_size →
      gf16.multiply a b = gf16.multiplyWithoutTables a b := by
  decide

/-- C2 witness at `a = 11`, `b = 13`. -/
theorem c2_multiply_refines_raw_witness :
    gf16.multiply 11 13 = gf16.multiplyWithoutTables 11 13 :=
  c2_multiply_refines_raw 11 (by decide) 13 (by decide)

/-- C3: for the field constructed with `primitive_poly = 0b10011` and
`m = 4`, every nonzero element `a` in `[0, field_size)` satisfies
`multiply(a, inverse(a)) = 1`: `inverse(a)` succeeds and multiplying its
value by `a` yields the multiplicative identity. -/
theorem c3_inverse_law :
    ∀ a, a < gf16.field_size → a ≠ 0 →
      Except.map (gf16.multiply a) (gf16.inverse a) = Except.ok 1 := by
  decide

/-- C3 witness at `a = 11`. -/
theorem c3_inverse_law_witness :
    Except.map (gf16.multiply 11) (gf16.inverse 11) = Except.ok 1 :=
  c3_inverse_law 11 (by decide) (by decide)

/-- C4: for the field constructed with `primitive_poly = 0b10011` and
`m = 4`, for every element `a` and every nonzero element `b` in
`[0, field_size)`, `divide(a, b)` succeeds and
`multiply(divide(a, b), b) = a`. -/
theorem c4_divide_roundtrip :
    ∀ a, a < gf16.field_size → ∀ b, b < gf16.field_size → b ≠ 0 →
      Except.map (fun q => gf16.multiply q b) (gf16.divide a b) = Except.ok a := by
  decide

/-- C4 witness at `a = 11`, `b = 13`. -/
theorem c4_divide_roundtrip_witness :
    Except.map (fun q => gf16.multiply q 13) (gf16.divide 11 13) = Except.ok 11 :=
  c4_divide_roundtrip 11 (by decide) 13 (by decide) (by decide)

/-- C5: `divide(a, b)` raises the division-by-zero domain error exactly when
`b = 0`, and returns a value (never raises) for every nonzero divisor.
Proved for every constructed field and all in-range operands. -/
theorem c5_divide_error_iff_zero_divisor (primitive_poly m a b : Nat)
    (_ha : a < (mkGaloisField primitive_poly m).field_size)
    (_hb : b < (mkGaloisField primitive_poly m).field_size) :
    ((mkGaloisField primitive_poly m).divide a b
        = Except.error "Division by zero" ↔ b = 0)
    ∧ (b ≠ 0 → ∃ v, (mkGaloisField primitive_poly m).divide a b = Except.ok v) := by
  by_cases hb0 : b = 0
  · simp [GaloisField.divide, hb0]
  · by_cases ha0 : a = 0 <;> simp [GaloisField.divide, hb0, ha0]

/-- C5 witness at the field `GaloisField(0b10011, 4)` with `a = 11`, `b = 13`. -/
theorem c5_divide_error_iff_zero_divisor_witness :
    ((mkGaloisField 0b10011 4).divide 11 13
        = Except.error "Division by zero" ↔ 13 = 0)
    ∧ (13 ≠ 0 → ∃ v, (mkGaloisField 0b10011 4).divide 11 13 = Except.ok v) :=
  c5_divide_error_iff_zero_divisor 0b10011 4 11 13 (by decide) (by decide)

/-- C6: `inverse(a)` raises the zero-inverse domain error exactly when
`a = 0`, and returns a value (never raises) for every nonzero operand.
Proved for every constructed field and all in-range operands. -/
theorem c6_inverse_error_iff_zero_operand (primitive_poly m a : Nat)
    (_ha : a < (mkGaloisField primitive_poly m).field_size) :
    ((mkGaloisField primitive_poly m).inverse a
        = Except.error "Zero has no multiplicative inverse" ↔ a = 0)
    ∧ (a ≠ 0 → ∃ v, (mkGaloisField primitive_poly m).inverse a = Except.ok v) := by
  by_cases ha0 : a = 0 <;> simp [GaloisField.inverse, ha0]

/-- C6 witness at the field `GaloisField(0b10011, 4)` with `a = 11`. -/
theorem c6_inverse_error_iff_zero_operand_witness :
    ((mkGaloisField 0b10011 4).inverse 11
        = Except.error "Zero has no multiplicative inverse" ↔ 11 = 0)
    ∧ (11 ≠ 0 → ∃ v, (mkGaloisField 0b10011 4).inverse 11 = Except.ok v) :=
  c6_inverse_error_iff_zero_operand 0b10011 4 11 (by decide)

/-- C7: `multiply(a, b)` returns `0` whenever either operand is `0`; by the
definition of `GaloisField.multiply` this is decided by the guard before any
table lookup is reached.  Proved for every constructed field object and all
in-range operands. -/
theorem c7_multiply_zero_annihilates (gf : GaloisField) (a b : Nat)
    (_ha : a < gf.field_size) (_hb : b < gf.field_size) (h : a = 0 ∨ b = 0) :
    gf.multiply a b = 0 := by
  rcases h with h | h <;> simp [GaloisField.multiply, h]

/-- C7 witness at the field `GaloisField(0b10011, 4)` with `a = 0`, `b = 5`. -/
theorem c7_multiply_zero_annihilates_witness :
    gf16.multiply 0 5 = 0 :=
  c7_multiply_zero_annihilates gf16 0 5 (by decide) (by decide) (Or.inl rfl)

/-- C8: for any constructor arguments, the constructed exponent table stores
the same value at `i` and at `i + field_size - 1` for every
`i < field_size - 1`.  (The tables are plain data fields never written
outside the construction loop, so the duplication persists for the life of
the object.) -/
theorem c8_exp_table_duplicated (primitive_poly m i : Nat)
    (hi : i < (mkGaloisField primitive_poly m).field_size - 1) :
    (mkGaloisField primitive_poly m).exp_table.getD i 0
      = (mkGaloisField primitive_poly m).exp_table.getD
          (i + (mkGaloisField primitive_poly m).field_size - 1) 0 := by
  have hfseq : (mkGaloisField primitive_poly m).field_size = 1 <<< m := rfl
  have hpos : 1 ≤ 1 <<< m := by
    rw [Nat.one_shiftLeft]
    exact Nat.one_le_two_pow
  have h := buildTablesGo_expPairs (1 <<< m) primitive_poly hpos
      (1 <<< m - 1) 0 1 (List.replicate (2 * (1 <<< m)) 0)
      (List.replicate (1 <<< m) 0) (by simp) (by omega)
      (fun j hj => absurd hj (Nat.not_lt_zero j)) i (by omega)
  exact h

/-- C8 witness at the field `GaloisField(0b10011, 4)` with `i = 0`. -/
theorem c8_exp_table_duplicated_witness :
    (mkGaloisField 0b10011 4).exp_table.getD 0 0
      = (mkGaloisField 0b10011 4).exp_table.getD
          (0 + (mkGaloisField 0b10011 4).field_size - 1) 0 :=
  c8_exp_table_duplicated 0b10011 4 0 (by decide)

/-- C9: for the field constructed with `primitive_poly = 0b10011` and
`m = 4`, the log table restricted to the nonzero elements `1..15` is a
bijection onto the exponents `[0, 15)`: listing `log_table[x]` for
`x = 1, ..., 15` gives a permutation of `0, ..., 14`, so every nonzero
element received its logarithm exactly once in the construction loop. -/
theorem c9_log_table_bijection :
    List.Perm
      (((List.range gf16.field_size).drop 1).map fun x => gf16.log_table.getD x 0)
      (List.range (gf16.field_size - 1)) := by
  decide

/-- C10: under the stated nonzero preconditions, the exponent-table index
computed by each of `multiply`, `divide` and `inverse` (after the explicit
modulo by `field_size - 1`) lies in `[0, field_size - 1)`, so the duplicated
second half of the exponent table is never consulted; the log table is read
only at the operand positions themselves, which are nonzero by precondition
(see the definitions of `multiply`, `divide`, `inverse`).  Proved for every
field constructed with `m ≥ 1`. -/
theorem c10_exp_indices_in_first_half (primitive_poly m a b : Nat)
    (hm : 1 ≤ m) (_ha : a ≠ 0) (_hb : b ≠ 0) :
    (mkGaloisField primitive_poly m).mulIndex a b
        < (mkGaloisField primitive_poly m).field_size - 1
    ∧ (mkGaloisField primitive_poly m).divIndex a b
        < (mkGaloisField primitive_poly m).field_size - 1
    ∧ (mkGaloisField primitive_poly m).invIndex a
        < (mkGaloisField primitive_poly m).field_size - 1 := by
  have hfseq : (mkGaloisField primitive_poly m).field_size = 1 <<< m := rfl
  have h2 : 2 ≤ 1 <<< m := by
    rw [Nat.one_shiftLeft]
    calc 2 = 2 ^ 1 := by norm_num
    _ ≤ 2 ^ m := Nat.pow_le_pow_right (by omega) hm
  refine ⟨?_, ?_, ?_⟩
  · simp only [GaloisField.mulIndex]
    exact Nat.mod_lt _ (by omega)
  · simp only [GaloisField.divIndex]
    have h1 := Int.emod_nonneg
      ((((mkGaloisField primitive_poly m).log_table.getD a 0 : Int))
        - ((mkGaloisField primitive_poly m).log_table.getD b 0 : Int))
      (b := ((mkGaloisField primitive_poly m).field_size : Int) - 1) (by omega)
    have hlt := Int.emod_lt_of_pos
      ((((mkGaloisField primitive_poly m).log_table.getD a 0 : Int))
        - ((mkGaloisField primitive_poly m).log_table.getD b 0 : Int))
      (b := ((mkGaloisField primitive_poly m).field_size : Int) - 1) (by omega)
    omega
  · simp only [GaloisField.invIndex]
    have h1 := Int.emod_nonneg
      (-((mkGaloisField primitive_poly m).log_table.getD a 0 : Int))
      (b := ((mkGaloisField primitive_poly m).field_size : Int) - 1) (by omega)
    have hlt := Int.emod_lt_of_pos
      (-((mkGaloisField primitive_poly m).log_table.getD a 0 : Int))
      (b := ((mkGaloisField primitive_poly m).field_size : Int) - 1) (by omega)
    omega

/-- C10 witness at the field `GaloisField(0b10011, 4)` with `a = 11`,
`b = 13`. -/
theorem c10_exp_indices_in_first_half_witness :
    (mkGaloisField 0b10011 4).mulIndex 11 13
        < (mkGaloisField 0b10011 4).field_size - 1
    ∧ (mkGaloisField 0b10011 4).divIndex 11 13
        < (mkGaloisField 0b10011 4).field_size - 1
    ∧ (mkGaloisField 0b10011 4).invIndex 11
        < (mkGaloisField 0b10011 4).field_size - 1 :=
  c10_exp_indices_in_first_half 0b10011 4 11 13 (by decide) (by decide) (by decide)

end GF
